import Mathlib

/-!
Shallow embedding of the chladni repository core:
src/chladni/core.py (ValueMap, WaveInfo, calculate_chladni_pattern),
src/chladni/visualization.py (ColorMap, palettes, generate_bitmap_pil) and
src/chladni/file_io.py (save_chl_file / load_chl_file).

Modelling conventions:
* Python float arithmetic is modelled over the rationals; math.pi and
  math.cos are abstract parameters of the kernel, since none of the
  verified properties depend on their numeric values.
* Python exceptions become an explicit error type PyError; a function
  that can raise returns Except PyError.  Mutation is explicit state
  passing; the kernel returns the final grid together with the outcome,
  mirroring the fact that a raised exception leaves earlier in-place
  mutation visible to the caller.
* The .chl codec is modelled on the decompressed byte stream (List of
  naturals, one entry per byte); the gzip wrapper is a lossless transport
  layer and is treated as the identity.  float32 fields are represented
  by their 32-bit patterns (naturals below 2 ^ 32), which is exact for
  the round-trip claims because struct.pack / struct.unpack preserve
  those bits for values representable as float32.
-/

namespace Chladni

/-- Exception kinds raised by the embedded code, one constructor per
Python exception class that the source can raise. -/
inductive PyError where
  | valueError        -- ValueError: bad magic or version, ValueMap without buffer
  | indexError        -- IndexError: coordinates out of bounds
  | structError       -- struct.error: fewer bytes available than unpack needs
  | ioError           -- IOError: truncated level-map payload
  | zeroDivisionError -- ZeroDivisionError: 1.0 / 0 in the kernel
deriving DecidableEq

deriving instance DecidableEq for Except

/-- One wave term (the WaveInfo dataclass in core.py), parametric in the
representation of its three float fields (rationals for the kernel,
32-bit float patterns for the file codec). -/
structure WaveInfo (α : Type) where
  «on» : Bool
  amplitude : α
  frequency : α
  phase : α
deriving DecidableEq

/-- Constant ITERATION_MULTIPLIER from core.py. -/
def ITERATION_MULTIPLIER : ℚ := 256

/-- Constant MIN_FREQ_RATIO from core.py; the float literal 0.1 is
modelled as the rational 1/10. -/
def MIN_FREQ_RATIO : ℚ := 1 / 10

/-- The ValueMap container of core.py: width, height and the optional
row-major buffer (field _bits in the source). -/
structure ValueMap (α : Type) where
  width : ℕ
  height : ℕ
  bits : Option (List α)
deriving DecidableEq

namespace ValueMap

variable {α : Type} [Zero α]

/-- Method _change_size: installs the new dimensions and replaces the
buffer with a zero-filled one (absent when either dimension is 0). -/
def change_size (_vm : ValueMap α) (new_width new_height : ℕ) : ValueMap α :=
  { width := new_width, height := new_height,
    bits := if new_width = 0 ∨ new_height = 0 then none
            else some (List.replicate (new_height * new_width) 0) }

/-- Method set_size: clamps negative inputs to 0, then resizes through
_change_size only when the clamped dimensions differ from the current
ones.  Returns the new map and the changed flag. -/
def set_size (vm : ValueMap α) (new_width new_height : ℤ) : ValueMap α × Bool :=
  let nw := (max 0 new_width).toNat
  let nh := (max 0 new_height).toNat
  if nw ≠ vm.width ∨ nh ≠ vm.height then (vm.change_size nw nh, true)
  else (vm, false)

/-- Constructor __init__: starts from the empty state and calls set_size. -/
def make (width height : ℤ) : ValueMap α :=
  (({ width := 0, height := 0, bits := none } : ValueMap α).set_size width height).1

/-- Method get_value: ValueError when the buffer is absent, IndexError
when the coordinates are out of bounds. -/
def get_value (vm : ValueMap α) (x y : ℤ) : Except PyError α :=
  match vm.bits with
  | none => .error .valueError
  | some l =>
    if 0 ≤ y ∧ y < (vm.height : ℤ) ∧ 0 ≤ x ∧ x < (vm.width : ℤ) then
      .ok (l.getD (y.toNat * vm.width + x.toNat) 0)
    else .error .indexError

/-- Method set_value: same checks as get_value, then an in-place store. -/
def set_value (vm : ValueMap α) (x y : ℤ) (v : α) : Except PyError (ValueMap α) :=
  match vm.bits with
  | none => .error .valueError
  | some l =>
    if 0 ≤ y ∧ y < (vm.height : ℤ) ∧ 0 ≤ x ∧ x < (vm.width : ℤ) then
      .ok { vm with bits := some (l.set (y.toNat * vm.width + x.toNat) v) }
    else .error .indexError

/-- Method __setitem__ with a (row, column) key; its body repeats the
checks of set_value.  Non-pair keys (the TypeError branch) are not
representable in this typed embedding. -/
def setitem (vm : ValueMap α) (y x : ℤ) (v : α) : Except PyError (ValueMap α) :=
  match vm.bits with
  | none => .error .valueError
  | some l =>
    if 0 ≤ y ∧ y < (vm.height : ℤ) ∧ 0 ≤ x ∧ x < (vm.width : ℤ) then
      .ok { vm with bits := some (l.set (y.toNat * vm.width + x.toNat) v) }
    else .error .indexError

/-- Method clear: zero-fills the buffer in place, no-op when absent. -/
def clear (vm : ValueMap α) : ValueMap α :=
  { vm with bits := vm.bits.map (fun l => List.replicate l.length 0) }

/-- Method delete: set_size(0, 0). -/
def delete (vm : ValueMap α) : ValueMap α :=
  (vm.set_size 0 0).1

/-- Property empty: buffer absent or of zero length. -/
def isEmptyMap (vm : ValueMap α) : Bool :=
  match vm.bits with
  | none => true
  | some l => l.length == 0

/-- Specification-side cell accessor: the buffer entry at (x, y), 0 when
absent or out of range.  Under WF and in-bounds coordinates it agrees
with get_value. -/
def cell (vm : ValueMap α) (x y : ℕ) : α :=
  match vm.bits with
  | none => 0
  | some l => l.getD (y * vm.width + x) 0

/-- The ValueMap invariant: the buffer is absent exactly when a dimension
is 0, and otherwise its length is height * width. -/
def WF (vm : ValueMap α) : Prop :=
  match vm.bits with
  | none => vm.width = 0 ∨ vm.height = 0
  | some l => (vm.width ≠ 0 ∧ vm.height ≠ 0) ∧ l.length = vm.height * vm.width

instance (vm : ValueMap α) : Decidable vm.WF :=
  match vm with
  | ⟨w, h, none⟩ => inferInstanceAs (Decidable (w = 0 ∨ h = 0))
  | ⟨w, h, some l⟩ => inferInstanceAs (Decidable ((w ≠ 0 ∧ h ≠ 0) ∧ l.length = h * w))

end ValueMap

/-- Value of one grid cell in calculate_chladni_pattern: the body of the
innermost x-loop of core.py.  The source computes ry once per row and rx
once per cell; recomputing both here yields the same value.  pi' models
math.pi and cosF models math.cos. -/
def chladni_cell (pi' : ℚ) (cosF : ℚ → ℚ) (wave_infos : List (WaveInfo ℚ))
    (r_width r_height : ℚ) (x y : ℕ) : ℚ :=
  let ry : ℚ := (y : ℚ) * r_height
  let rx : ℚ := (x : ℚ) * r_width
  let v : ℚ := wave_infos.foldl
    (fun v info =>
      if info.«on» = false ∨ info.frequency < MIN_FREQ_RATIO then v
      else
        let phase_rad := info.phase * pi' / 180
        let q := 2 * pi' * info.frequency
        v + info.amplitude * cosF (q * rx + phase_rad) * cosF (q * ry + phase_rad))
    0
  |v| * ITERATION_MULTIPLIER

/-- Inner x-loop of calculate_chladni_pattern over the remaining column
indices.  stop models stop_event.is_set() (constant during the call in
this single-threaded embedding); the loop polls it every 64 columns.
A raise from set_value stops the loop and is reported in the third
component, with the grid as mutated so far. -/
def inner_loop (stop : Bool) (pi' : ℚ) (cosF : ℚ → ℚ) (waves : List (WaveInfo ℚ))
    (r_width r_height : ℚ) (y : ℕ) :
    List ℕ → ValueMap ℚ → ℚ → ValueMap ℚ × ℚ × Option PyError
  | [], vm, val_max => (vm, val_max, none)
  | x :: xs, vm, val_max =>
    if stop ∧ x % 64 = 0 then (vm, val_max, none)
    else
      let current_val := chladni_cell pi' cosF waves r_width r_height x y
      match vm.set_value (x : ℤ) (y : ℤ) current_val with
      | .error e => (vm, val_max, some e)
      | .ok vm1 =>
        inner_loop stop pi' cosF waves r_width r_height y xs vm1
          (if current_val > val_max then current_val else val_max)

/-- Outer y-loop of calculate_chladni_pattern: polls stop before each row
and again after the row (the source also breaks after a row when the
event is set). -/
def outer_loop (stop : Bool) (pi' : ℚ) (cosF : ℚ → ℚ) (waves : List (WaveInfo ℚ))
    (r_width r_height : ℚ) (width : ℤ) :
    List ℕ → ValueMap ℚ → ℚ → ValueMap ℚ × ℚ × Option PyError
  | [], vm, val_max => (vm, val_max, none)
  | y :: ys, vm, val_max =>
    if stop then (vm, val_max, none)
    else
      match inner_loop stop pi' cosF waves r_width r_height y
          (List.range width.toNat) vm val_max with
      | (vm1, val_max1, some e) => (vm1, val_max1, some e)
      | (vm1, val_max1, none) =>
        if stop then (vm1, val_max1, none)
        else outer_loop stop pi' cosF waves r_width r_height width ys vm1 val_max1

/-- Function calculate_chladni_pattern of core.py.  Returns the final
grid together with either the peak value or the raised error; the grid
component reflects the in-place mutation that happened before a raise.
Computing r_width = 1.0 / width raises ZeroDivisionError when width is
0, and r_height likewise for height. -/
def calculate_chladni_pattern (pi' : ℚ) (cosF : ℚ → ℚ) (value_map : ValueMap ℚ)
    (wave_infos : List (WaveInfo ℚ)) (width height : ℤ)
    (stop_event : Option Bool) : ValueMap ℚ × Except PyError ℚ :=
  let vm :=
    if (value_map.width : ℤ) ≠ width ∨ (value_map.height : ℤ) ≠ height then
      (value_map.set_size width height).1
    else value_map.clear
  if width = 0 then (vm, .error .zeroDivisionError)
  else if height = 0 then (vm, .error .zeroDivisionError)
  else
    let r_width : ℚ := 1 / (width : ℚ)
    let r_height : ℚ := 1 / (height : ℚ)
    let stop := stop_event.getD false
    match outer_loop stop pi' cosF wave_infos r_width r_height width
        (List.range height.toNat) vm 0 with
    | (vm1, val_max, none) => (vm1, .ok val_max)
    | (vm1, _, some e) => (vm1, .error e)

/-! Embedding of src/chladni/visualization.py. -/

/-- RGB triple (red, green, blue), each channel a natural below 256. -/
def RGB : Type := ℕ × ℕ × ℕ

instance : DecidableEq RGB := inferInstanceAs (DecidableEq (ℕ × ℕ × ℕ))

/-- Truncation toward zero, the behaviour of the Python int() builtin on
a float. -/
def pyInt (q : ℚ) : ℤ :=
  if 0 ≤ q then ⌊q⌋ else -⌊-q⌋

/-- Rounding half to even, the behaviour of the Python round() builtin. -/
def pyRound (q : ℚ) : ℤ :=
  let f := ⌊q⌋
  let r := q - (f : ℚ)
  if r < 1 / 2 then f
  else if 1 / 2 < r then f + 1
  else if f % 2 = 0 then f else f + 1

/-- Clamp for np.clip(v, lo, hi) on rationals. -/
def clampQ (v lo hi : ℚ) : ℚ := max lo (min hi v)

/-- Clamp for max(lo, min(hi, v)) on integers. -/
def clampZ (v lo hi : ℤ) : ℤ := max lo (min hi v)

/-- Function _mix_colors of visualization.py: color1 gets weight
weight2_percent, color2 gets the rest; each channel is truncated with
int() and clamped to the byte range. -/
def mix_colors (color1 color2 : RGB) (weight2_percent : ℤ) : RGB :=
  let w2 : ℚ := (weight2_percent : ℚ) / 100
  let w1 : ℚ := 1 - w2
  let r := pyInt ((color2.1 : ℚ) * w1 + (color1.1 : ℚ) * w2)
  let g := pyInt ((color2.2.1 : ℚ) * w1 + (color1.2.1 : ℚ) * w2)
  let b := pyInt ((color2.2.2 : ℚ) * w1 + (color1.2.2 : ℚ) * w2)
  ((clampZ r 0 255).toNat, (clampZ g 0 255).toNat, (clampZ b 0 255).toNat)

/-- The ColorMap class: a named 256-entry palette, the mutable max_iter
scale and its cached reciprocal (field _rec_max_col in the source). -/
structure ColorMap where
  name : String
  palette : List RGB
  max_iter : ℚ
  rec_max_col : ℚ

/-- Method _update_calc: recomputes the reciprocal of max_iter. -/
def ColorMap.update_calc (cm : ColorMap) : ColorMap :=
  { cm with rec_max_col := if cm.max_iter > 0 then 1 / cm.max_iter else 0 }

/-- Constructor __init__ of ColorMap: rejects palettes that do not hold
exactly 256 colors, then caches the reciprocal. -/
def ColorMap.make (name : String) (palette : List RGB) (max_iter : ℚ) :
    Except PyError ColorMap :=
  if palette.length ≠ 256 then .error .valueError
  else .ok (ColorMap.update_calc
    { name := name, palette := palette, max_iter := max_iter, rec_max_col := 0 })

/-- Method set_max_iter: no-op when unchanged, otherwise stores the new
value and recomputes the reciprocal. -/
def ColorMap.set_max_iter (cm : ColorMap) (new_max_iter : ℚ) : ColorMap :=
  if cm.max_iter = new_max_iter then cm
  else ColorMap.update_calc { cm with max_iter := new_max_iter }

/-- Method iter_to_rgb of ColorMap: saturating lookups at the two ends,
otherwise position interpolation between two adjacent palette entries,
with the weight rounded to whole percent. -/
def ColorMap.iter_to_rgb (cm : ColorMap) (value : ℚ) : RGB :=
  if value ≥ cm.max_iter then cm.palette.getD 255 (0, 0, 0)
  else if value ≤ 0 then cm.palette.getD 0 (0, 0, 0)
  else
    let normalized_value := value * cm.rec_max_col
    let n_scaled := normalized_value * 255
    let idx_float := clampQ n_scaled 0 255
    let i := min (pyInt idx_float).toNat 254
    let fractional_part := idx_float - (i : ℚ)
    let weight := clampZ (pyRound (fractional_part * 100)) 0 100
    mix_colors (cm.palette.getD (i + 1) (0, 0, 0)) (cm.palette.getD i (0, 0, 0)) weight

/-- Function create_grayscale_palette: entry i is (i, i, i). -/
def create_grayscale_palette : List RGB :=
  (List.range 256).map (fun i => (i, i, i))

/-- Function create_spectrum_palette: four 64-entry hue ramps. -/
def create_spectrum_palette : List RGB :=
  (List.range 256).map (fun i =>
    if i < 64 then (0, i * 4, 255)
    else if i < 128 then (0, 255, 255 - (i - 64) * 4)
    else if i < 192 then ((i - 128) * 4, 255, 0)
    else (255, 255 - (i - 192) * 4, 0))

/-- Pixel buffer of a PIL RGB image: row-major, pixel (x, y) at index
y * width + x. -/
structure PILImage where
  width : ℕ
  height : ℕ
  pixels : List RGB
deriving DecidableEq

/-- Function generate_bitmap_pil of visualization.py.  Returns the
mutated color map together with the image, since the source updates
color_map.max_iter in place.  A grid with either dimension 0 yields a
1x1 black image before the color map is touched. -/
def generate_bitmap_pil (value_map : ValueMap ℚ) (color_map : ColorMap)
    (current_max_value_in_map : Option ℚ) (normalize : Bool) :
    Except PyError (ColorMap × PILImage) :=
  if value_map.width = 0 ∨ value_map.height = 0 then
    .ok (color_map, ⟨1, 1, [(0, 0, 0)]⟩)
  else
    let cm :=
      match normalize, current_max_value_in_map with
      | true, some peak =>
        if peak > 0 then color_map.set_max_iter peak
        else color_map.set_max_iter ITERATION_MULTIPLIER
      | _, _ => color_map.set_max_iter ITERATION_MULTIPLIER
    match (List.range value_map.height).mapM (fun (y : ℕ) =>
        (List.range value_map.width).mapM (fun (x : ℕ) =>
          (value_map.get_value (x : ℤ) (y : ℤ)).map (fun val => cm.iter_to_rgb val))) with
    | .error e => .error e
    | .ok rows => .ok (cm, ⟨value_map.width, value_map.height, rows.flatten⟩)

/-! Embedding of src/chladni/file_io.py.  The stream is the decompressed
payload as a list of bytes; float32 values are carried as their 32-bit
patterns. -/

/-- Constant CHL_ID_EXPECTED: the 4-byte magic 0xA4 then the letters
C, H, L. -/
def CHL_ID_EXPECTED : List ℕ := [164, 67, 72, 76]

/-- File format version for a standard save. -/
def VERSION_STANDARD : ℕ := 10

/-- File format version when the level map payload is appended. -/
def VERSION_WITH_LEVEL_MAP : ℕ := 11

/-- The ChladniData named tuple of file_io.py.  The filename field is
caller metadata never written to the stream and is omitted. -/
structure ChladniData (α : Type) where
  wave_infos : List (WaveInfo α)
  map_index : ℕ
  width : ℕ
  height : ℕ
  normalize : Bool
  value_map : Option (ValueMap α)
deriving DecidableEq

/-- Little-endian byte encoding of a natural on n bytes, the layout
produced by struct.pack for unsigned fields and for float32 bit
patterns. -/
def packLE : ℕ → ℕ → List ℕ
  | 0, _ => []
  | n + 1, v => v % 256 :: packLE n (v / 256)

/-- Little-endian value of a byte list, the decoding done by
struct.unpack. -/
def leVal : List ℕ → ℕ
  | [] => 0
  | b :: bs => b + 256 * leVal bs

/-- Range-checked struct.pack of an unsigned field on n bytes; Python
raises struct.error when the value does not fit. -/
def packU (n v : ℕ) : Except PyError (List ℕ) :=
  if v < 256 ^ n then .ok (packLE n v) else .error .structError

/-- Model of f.read(n) followed by struct.unpack: reads up to n bytes
and raises struct.error when fewer than n were available. -/
def unpackNum (n : ℕ) (s : List ℕ) : Except PyError (ℕ × List ℕ) :=
  if (s.take n).length = n then .ok (leVal (s.take n), s.drop n)
  else .error .structError

/-- Function _write_wave_info: a bool byte then the three float32
fields, 13 bytes in all. -/
def write_wave_info (wi : WaveInfo ℕ) : List ℕ :=
  (if wi.«on» then [1] else [0]) ++
    packLE 4 wi.amplitude ++ packLE 4 wi.frequency ++ packLE 4 wi.phase

/-- Function _read_wave_info: unpacks the four fields in order; the
bool byte is true when nonzero, following struct.unpack. -/
def read_wave_info (s : List ℕ) : Except PyError (WaveInfo ℕ × List ℕ) :=
  match unpackNum 1 s with
  | .error e => .error e
  | .ok (on_byte, s) =>
    match unpackNum 4 s with
    | .error e => .error e
    | .ok (amplitude, s) =>
      match unpackNum 4 s with
      | .error e => .error e
      | .ok (frequency, s) =>
        match unpackNum 4 s with
        | .error e => .error e
        | .ok (phase, s) =>
          .ok (⟨on_byte != 0, amplitude, frequency, phase⟩, s)

/-- The wave-record loop of load_chl_file: reads capacity records in
order. -/
def read_waves : ℕ → List ℕ → Except PyError (List (WaveInfo ℕ) × List ℕ)
  | 0, s => .ok ([], s)
  | n + 1, s =>
    match read_wave_info s with
    | .error e => .error e
    | .ok (wi, s) =>
      match read_waves n s with
      | .error e => .error e
      | .ok (ws, s) => .ok (wi :: ws, s)

/-- Model of np.frombuffer with dtype float32: groups the raw bytes into
4-byte little-endian words. -/
def from_buffer_f32 : List ℕ → List ℕ
  | b0 :: b1 :: b2 :: b3 :: rest => leVal [b0, b1, b2, b3] :: from_buffer_f32 rest
  | _ => []

/-- Function load_chl_file of file_io.py, on the decompressed stream. -/
def load_chl_file (stream : List ℕ) : Except PyError (ChladniData ℕ) :=
  let file_id := stream.take 4
  let s := stream.drop 4
  if file_id ≠ CHL_ID_EXPECTED then .error .valueError
  else
    match unpackNum 2 s with
    | .error e => .error e
    | .ok (version, s) =>
      if ¬(version = VERSION_STANDARD ∨ version = VERSION_WITH_LEVEL_MAP) then
        .error .valueError
      else
        match unpackNum 4 s with
        | .error e => .error e
        | .ok (capacity, s) =>
          match unpackNum 4 s with
          | .error e => .error e
          | .ok (map_index, s) =>
            match unpackNum 4 s with
            | .error e => .error e
            | .ok (width, s) =>
              match unpackNum 4 s with
              | .error e => .error e
              | .ok (height, s) =>
                match unpackNum 1 s with
                | .error e => .error e
                | .ok (normalize_byte, s) =>
                  match read_waves capacity s with
                  | .error e => .error e
                  | .ok (wave_infos, s) =>
                    let value_map_data : Except PyError (Option (ValueMap ℕ)) :=
                      if version = VERSION_WITH_LEVEL_MAP then
                        let vm0 : ValueMap ℕ := ValueMap.make (width : ℤ) (height : ℤ)
                        if 0 < width ∧ 0 < height then
                          let expected_bytes := width * height * 4
                          let raw := s.take expected_bytes
                          if raw.length ≠ expected_bytes then .error .ioError
                          else .ok (some { vm0 with bits := some (from_buffer_f32 raw) })
                        else .ok (some { vm0 with bits := some ([] : List ℕ) })
                      else .ok none
                    match value_map_data with
                    | .error e => .error e
                    | .ok value_map =>
                      .ok { wave_infos := wave_infos, map_index := map_index,
                            width := width, height := height,
                            normalize := decide (normalize_byte > 0),
                            value_map := value_map }

/-- Function save_chl_file of file_io.py, producing the decompressed
stream.  The level-map bytes are written only in the with-level-map
version and when the buffer is present; float32 fields are emitted as
their 4 little-endian pattern bytes (struct.pack of a float is total). -/
def save_chl_file (data : ChladniData ℕ) (save_level_map : Bool) :
    Except PyError (List ℕ) :=
  let version :=
    if save_level_map && data.value_map.isSome then VERSION_WITH_LEVEL_MAP
    else VERSION_STANDARD
  match packU 2 version with
  | .error e => .error e
  | .ok version_bytes =>
    match packU 4 data.wave_infos.length with
    | .error e => .error e
    | .ok capacity_bytes =>
      match packU 4 data.map_index with
      | .error e => .error e
      | .ok map_index_bytes =>
        match packU 4 data.width with
        | .error e => .error e
        | .ok width_bytes =>
          match packU 4 data.height with
          | .error e => .error e
          | .ok height_bytes =>
            let wave_bytes := (data.wave_infos.map write_wave_info).flatten
            let level_map_bytes : List ℕ :=
              match data.value_map with
              | some vm =>
                if version = VERSION_WITH_LEVEL_MAP then
                  match vm.bits with
                  | some l => (l.map (packLE 4)).flatten
                  | none => []
                else []
              | none => []
            .ok (CHL_ID_EXPECTED ++ version_bytes ++ capacity_bytes ++
                 map_index_bytes ++ width_bytes ++ height_bytes ++
                 [if data.normalize then 1 else 0] ++ wave_bytes ++ level_map_bytes)

/-- Continuation of load_chl_file after the fixed-layout header has been
parsed: consumes the result of the wave-record loop and performs the
version-dependent level-map read.  Used to state the header-parsing
lemma; its body is the tail of load_chl_file verbatim. -/
def load_tail (version map_index width height normalize_byte : ℕ)
    (r : Except PyError (List (WaveInfo ℕ) × List ℕ)) :
    Except PyError (ChladniData ℕ) :=
  match r with
  | .error e => .error e
  | .ok (wave_infos, s) =>
    let value_map_data : Except PyError (Option (ValueMap ℕ)) :=
      if version = VERSION_WITH_LEVEL_MAP then
        let vm0 : ValueMap ℕ := ValueMap.make (width : ℤ) (height : ℤ)
        if 0 < width ∧ 0 < height then
          let expected_bytes := width * height * 4
          let raw := s.take expected_bytes
          if raw.length ≠ expected_bytes then .error .ioError
          else .ok (some { vm0 with bits := some (from_buffer_f32 raw) })
        else .ok (some { vm0 with bits := some ([] : List ℕ) })
      else .ok none
    match value_map_data with
    | .error e => .error e
    | .ok value_map =>
      .ok { wave_infos := wave_infos, map_index := map_index,
            width := width, height := height,
            normalize := decide (normalize_byte > 0),
            value_map := value_map }

/-! Specification-side definitions, written from the wording of the
spec, for comparison with the source functions above. -/

/-- ColorMap produced by the source constructor with the Except
unwrapped; construction from a 256-entry palette never fails, so the
default is never used. -/
def mkColorMap (name : String) (palette : List RGB) (max_iter : ℚ) : ColorMap :=
  (ColorMap.make name palette max_iter).toOption.getD ⟨"", [], 0, 0⟩

/-- The Spectrum color map at max_iter 255, as in the concrete scenario
of the spec. -/
def spectrumCM255 : ColorMap := mkColorMap "Spectrum" create_spectrum_palette 255

/-- A Spectrum color map constructed with max_iter 0. -/
def spectrumCM0 : ColorMap := mkColorMap "Spectrum" create_spectrum_palette 0

/-- The Grayscale color map at max_iter 255. -/
def grayscaleCM255 : ColorMap := mkColorMap "Grayscale" create_grayscale_palette 255

/-- One interpolated channel as claim C4 words it: linear blend of the
two palette channels with weights 100 - weight and weight, rounded
toward the nearest integer and clamped to the byte range. -/
def spec_channel_rounded (weight : ℤ) (a b : ℕ) : ℕ :=
  (clampZ (round ((a : ℚ) * ((100 - weight : ℤ) : ℚ) / 100 +
      (b : ℚ) * ((weight : ℤ) : ℚ) / 100)) 0 255).toNat

/-- One interpolated channel with the rounding replaced by truncation
toward zero, matching the int() call of _mix_colors. -/
def spec_channel_truncated (weight : ℤ) (a b : ℕ) : ℕ :=
  (clampZ (pyInt ((a : ℚ) * ((100 - weight : ℤ) : ℚ) / 100 +
      (b : ℚ) * ((weight : ℤ) : ℚ) / 100)) 0 255).toNat

/-- Interior interpolation formula exactly as claim C4 states it:
scaled position, floor index clamped to at most 254, percent weight,
then a per-channel blend rounded toward the nearest integer. -/
def spec_iter_to_rgb_rounded (palette : List RGB) (max_iter value : ℚ) : RGB :=
  let scaled := clampQ (value * (1 / max_iter) * 255) 0 255
  let i := min ⌊scaled⌋.toNat 254
  let weight := clampZ (pyRound ((scaled - (i : ℚ)) * 100)) 0 100
  let c0 := palette.getD i (0, 0, 0)
  let c1 := palette.getD (i + 1) (0, 0, 0)
  (spec_channel_rounded weight c0.1 c1.1,
   spec_channel_rounded weight c0.2.1 c1.2.1,
   spec_channel_rounded weight c0.2.2 c1.2.2)

/-- The same formula with the per-channel rounding corrected to the
truncation the source performs. -/
def spec_iter_to_rgb_truncated (palette : List RGB) (max_iter value : ℚ) : RGB :=
  let scaled := clampQ (value * (1 / max_iter) * 255) 0 255
  let i := min ⌊scaled⌋.toNat 254
  let weight := clampZ (pyRound ((scaled - (i : ℚ)) * 100)) 0 100
  let c0 := palette.getD i (0, 0, 0)
  let c1 := palette.getD (i + 1) (0, 0, 0)
  (spec_channel_truncated weight c0.1 c1.1,
   spec_channel_truncated weight c0.2.1 c1.2.1,
   spec_channel_truncated weight c0.2.2 c1.2.2)

/-! Helper lemmas about the byte-stream codec. -/

theorem packLE_length (n v : ℕ) : (packLE n v).length = n := by
  induction n generalizing v with
  | zero => rfl
  | succ n ih => simp [packLE, ih]

theorem leVal_packLE {n v : ℕ} (h : v < 256 ^ n) : leVal (packLE n v) = v := by
  induction n generalizing v with
  | zero =>
    simp only [pow_zero, Nat.lt_one_iff] at h
    simp [packLE, leVal, h]
  | succ n ih =>
    have hdiv : v / 256 < 256 ^ n := by
      rw [Nat.div_lt_iff_lt_mul (by norm_num)]
      calc v < 256 ^ (n + 1) := h
        _ = 256 ^ n * 256 := by ring
    simp only [packLE, leVal, ih hdiv]
    omega

theorem unpackNum_append {n v : ℕ} {rest : List ℕ} (h : v < 256 ^ n) :
    unpackNum n (packLE n v ++ rest) = .ok (v, rest) := by
  unfold unpackNum
  rw [List.take_left' (packLE_length n v), List.drop_left' (packLE_length n v),
    packLE_length, leVal_packLE h]
  simp

theorem unpackNum_short {n : ℕ} {s : List ℕ} (h : s.length < n) :
    unpackNum n s = .error .structError := by
  unfold unpackNum
  rw [List.length_take]
  simp [Nat.min_eq_right (Nat.le_of_lt h)]
  omega

theorem unpackNum_ok {n : ℕ} {s : List ℕ} (h : n ≤ s.length) :
    unpackNum n s = .ok (leVal (s.take n), s.drop n) := by
  unfold unpackNum
  rw [List.length_take]
  simp [Nat.min_eq_left h]

theorem read_wave_info_append (wi : WaveInfo ℕ) (rest : List ℕ)
    (ha : wi.amplitude < 2 ^ 32) (hf : wi.frequency < 2 ^ 32)
    (hp : wi.phase < 2 ^ 32) :
    read_wave_info (write_wave_info wi ++ rest) = .ok (wi, rest) := by
  obtain ⟨o, a, f, p⟩ := wi
  have ha' : a < 256 ^ 4 := by norm_num at ha ⊢; omega
  have hf' : f < 256 ^ 4 := by norm_num at hf ⊢; omega
  have hp' : p < 256 ^ 4 := by norm_num at hp ⊢; omega
  have hb : (if o then [1] else [0]) = packLE 1 (if o then 1 else 0) := by
    cases o <;> rfl
  have hbv : (if o then (1 : ℕ) else 0) < 256 ^ 1 := by
    cases o <;> norm_num
  unfold read_wave_info write_wave_info
  rw [hb, List.append_assoc, List.append_assoc, List.append_assoc]
  simp only [unpackNum_append hbv, unpackNum_append ha', unpackNum_append hf',
    unpackNum_append hp']
  cases o <;> simp

theorem read_waves_append (ws : List (WaveInfo ℕ)) (rest : List ℕ)
    (h : ∀ wi ∈ ws, wi.amplitude < 2 ^ 32 ∧ wi.frequency < 2 ^ 32 ∧ wi.phase < 2 ^ 32) :
    read_waves ws.length ((ws.map write_wave_info).flatten ++ rest) = .ok (ws, rest) := by
  induction ws with
  | nil => simp [read_waves]
  | cons wi ws ih =>
    obtain ⟨ha, hf, hp⟩ := h wi (by simp)
    simp only [List.map_cons, List.flatten_cons, List.length_cons, List.append_assoc,
      read_waves,
      read_wave_info_append wi ((List.map write_wave_info ws).flatten ++ rest) ha hf hp,
      ih (fun w hw => h w (List.mem_cons_of_mem _ hw))]

theorem flatten_map_packLE_length (l : List ℕ) :
    ((l.map (packLE 4)).flatten).length = 4 * l.length := by
  induction l with
  | nil => rfl
  | cons v l ih => simp [packLE_length, ih]; omega

theorem from_buffer_f32_flatten (l : List ℕ) (h : ∀ v ∈ l, v < 2 ^ 32) :
    from_buffer_f32 ((l.map (packLE 4)).flatten) = l := by
  induction l with
  | nil => rfl
  | cons v l ih =>
    have hv : v < 256 ^ 4 := by have := h v (by simp); norm_num at this ⊢; omega
    have hl : leVal (packLE 4 v) = v := leVal_packLE hv
    have e : packLE 4 v =
        [v % 256, v / 256 % 256, v / 256 / 256 % 256, v / 256 / 256 / 256 % 256] := by
      simp [packLE]
    rw [e] at hl
    simp only [List.map_cons, List.flatten_cons, e, List.cons_append, List.nil_append]
    rw [from_buffer_f32, hl, ih (fun w hw => h w (List.mem_cons_of_mem _ hw))]

theorem read_wave_info_short {s : List ℕ} (h : s.length < 13) :
    read_wave_info s = .error .structError := by
  unfold read_wave_info
  by_cases h1 : s.length < 1
  · simp only [unpackNum_short h1]
  · have h1' : 1 ≤ s.length := by omega
    simp only [unpackNum_ok h1']
    by_cases h2 : (s.drop 1).length < 4
    · simp only [unpackNum_short h2]
    · have h2' : 4 ≤ (s.drop 1).length := by omega
      simp only [unpackNum_ok h2']
      by_cases h3 : ((s.drop 1).drop 4).length < 4
      · simp only [unpackNum_short h3]
      · have h3' : 4 ≤ ((s.drop 1).drop 4).length := by omega
        simp only [unpackNum_ok h3']
        have h4 : (((s.drop 1).drop 4).drop 4).length < 4 := by
          simp only [List.length_drop] at *
          omega
        simp only [unpackNum_short h4]

theorem read_wave_info_ok {s : List ℕ} (h : 13 ≤ s.length) :
    ∃ wi, read_wave_info s = .ok (wi, s.drop 13) := by
  unfold read_wave_info
  have h1 : 1 ≤ s.length := by omega
  have h2 : 4 ≤ (s.drop 1).length := by simp only [List.length_drop]; omega
  have h3 : 4 ≤ (s.drop 5).length := by simp only [List.length_drop]; omega
  have h4 : 4 ≤ (s.drop 9).length := by simp only [List.length_drop]; omega
  have d2 : (s.drop 1).drop 4 = s.drop 5 := by rw [List.drop_drop]
  have d3 : (s.drop 5).drop 4 = s.drop 9 := by rw [List.drop_drop]
  have d4 : (s.drop 9).drop 4 = s.drop 13 := by rw [List.drop_drop]
  simp only [unpackNum_ok h1, d2, unpackNum_ok h2, unpackNum_ok h3, d3,
    unpackNum_ok h4, d4]
  exact ⟨_, rfl⟩

theorem read_waves_short (c : ℕ) :
    ∀ s : List ℕ, s.length < 13 * c → read_waves c s = .error .structError := by
  induction c with
  | zero => intro s h; omega
  | succ c ih =>
    intro s h
    by_cases hs : s.length < 13
    · rw [read_waves, read_wave_info_short hs]
    · obtain ⟨wi, hwi⟩ := read_wave_info_ok (show 13 ≤ s.length by omega)
      have hlen : (s.drop 13).length < 13 * c := by
        rw [List.length_drop]; omega
      simp only [read_waves, hwi, ih _ hlen]

/-! Helper lemmas about the ValueMap invariant. -/

theorem change_size_WF {α : Type} [Zero α] (vm : ValueMap α) (nw nh : ℕ) :
    (vm.change_size nw nh).WF := by
  unfold ValueMap.change_size
  by_cases h : nw = 0 ∨ nh = 0
  · simp only [ValueMap.WF, if_pos h]
    exact h
  · simp only [ValueMap.WF, if_neg h, List.length_replicate]
    push_neg at h
    exact ⟨h, trivial⟩

theorem set_size_WF {α : Type} [Zero α] (vm : ValueMap α) (hv : vm.WF) (w h : ℤ) :
    ((vm.set_size w h).1).WF := by
  rw [ValueMap.set_size]
  split
  · exact change_size_WF vm _ _
  · exact hv

theorem make_WF {α : Type} [Zero α] (w h : ℤ) : (ValueMap.make w h : ValueMap α).WF :=
  set_size_WF ({ width := 0, height := 0, bits := none } : ValueMap α) (Or.inl rfl) w h

theorem clear_WF {α : Type} [Zero α] (vm : ValueMap α) (hv : vm.WF) : vm.clear.WF := by
  obtain ⟨w, h, bits⟩ := vm
  cases bits with
  | none => exact hv
  | some l =>
    simp only [ValueMap.clear, ValueMap.WF, Option.map_some'] at hv ⊢
    exact ⟨hv.1, by simp [hv.2]⟩

theorem set_value_WF {α : Type} [Zero α] {vm vm1 : ValueMap α} {x y : ℤ} {v : α}
    (hv : vm.WF) (h : vm.set_value x y v = .ok vm1) : vm1.WF := by
  obtain ⟨w, hgt, bits⟩ := vm
  cases bits with
  | none => simp [ValueMap.set_value] at h
  | some l =>
    simp only [ValueMap.set_value] at h
    split at h
    · simp only [Except.ok.injEq] at h
      subst h
      simp only [ValueMap.WF] at hv ⊢
      exact ⟨hv.1, by simp [hv.2]⟩
    · cases h

theorem setitem_eq_set_value {α : Type} [Zero α] (vm : ValueMap α) (y x : ℤ) (v : α) :
    vm.setitem y x v = vm.set_value x y v := rfl

theorem delete_WF {α : Type} [Zero α] (vm : ValueMap α) (hv : vm.WF) :
    vm.delete.WF :=
  set_size_WF vm hv 0 0

/-! Helper lemmas for the pattern kernel on filtered wave lists. -/

theorem chladni_fold_skip (pi' : ℚ) (cosF : ℚ → ℚ) (rx ry : ℚ) :
    ∀ (l : List (WaveInfo ℚ)) (acc : ℚ),
    (∀ info ∈ l, info.«on» = false ∨ info.frequency < MIN_FREQ_RATIO) →
    l.foldl (fun v info =>
      if info.«on» = false ∨ info.frequency < MIN_FREQ_RATIO then v
      else
        v + info.amplitude * cosF (2 * pi' * info.frequency * rx + info.phase * pi' / 180) *
          cosF (2 * pi' * info.frequency * ry + info.phase * pi' / 180)) acc = acc := by
  intro l
  induction l with
  | nil => intro acc _; rfl
  | cons i l ih =>
    intro acc h
    rw [List.foldl_cons, if_pos (h i (List.mem_cons_self i l))]
    exact ih acc (fun j hj => h j (List.mem_cons_of_mem _ hj))

theorem chladni_cell_skip (pi' : ℚ) (cosF : ℚ → ℚ) (waves : List (WaveInfo ℚ))
    (r_width r_height : ℚ) (x y : ℕ)
    (h : ∀ info ∈ waves, info.«on» = false ∨ info.frequency < MIN_FREQ_RATIO) :
    chladni_cell pi' cosF waves r_width r_height x y = 0 := by
  simp only [chladni_cell]
  rw [chladni_fold_skip pi' cosF ((x : ℚ) * r_width) ((y : ℚ) * r_height) waves 0 h]
  simp

theorem set_value_replicate_zero (w h x y : ℕ) (hx : x < w) (hy : y < h) :
    (ValueMap.set_value ⟨w, h, some (List.replicate (h * w) (0 : ℚ))⟩
        (x : ℤ) (y : ℤ) 0) =
      .ok ⟨w, h, some (List.replicate (h * w) (0 : ℚ))⟩ := by
  simp only [ValueMap.set_value]
  split
  · simp [List.set_replicate_self]
  · rename_i hcond
    refine absurd ⟨Int.natCast_nonneg y, ?_, Int.natCast_nonneg x, ?_⟩ hcond
    · exact_mod_cast hy
    · exact_mod_cast hx

theorem inner_loop_zero (pi' : ℚ) (cosF : ℚ → ℚ) (waves : List (WaveInfo ℚ))
    (r_width r_height : ℚ) (w h y : ℕ) (hy : y < h)
    (hwaves : ∀ info ∈ waves, info.«on» = false ∨ info.frequency < MIN_FREQ_RATIO) :
    ∀ xs : List ℕ, (∀ x ∈ xs, x < w) →
    inner_loop false pi' cosF waves r_width r_height y xs
        ⟨w, h, some (List.replicate (h * w) 0)⟩ 0 =
      (⟨w, h, some (List.replicate (h * w) 0)⟩, 0, none) := by
  intro xs
  induction xs with
  | nil => intro _; rfl
  | cons x xs ih =>
    intro hx
    simp only [inner_loop,
      if_neg (show ¬((false = true) ∧ x % 64 = 0) by simp),
      chladni_cell_skip pi' cosF waves r_width r_height x y hwaves,
      set_value_replicate_zero w h x y (hx x (List.mem_cons_self x xs)) hy,
      if_neg (show ¬((0 : ℚ) > 0) by norm_num)]
    exact ih (fun j hj => hx j (List.mem_cons_of_mem _ hj))

theorem outer_loop_zero (pi' : ℚ) (cosF : ℚ → ℚ) (waves : List (WaveInfo ℚ))
    (r_width r_height : ℚ) (w h : ℕ) (wz : ℤ) (hwz : wz.toNat = w)
    (hwaves : ∀ info ∈ waves, info.«on» = false ∨ info.frequency < MIN_FREQ_RATIO) :
    ∀ ys : List ℕ, (∀ y ∈ ys, y < h) →
    outer_loop false pi' cosF waves r_width r_height wz ys
        ⟨w, h, some (List.replicate (h * w) 0)⟩ 0 =
      (⟨w, h, some (List.replicate (h * w) 0)⟩, 0, none) := by
  intro ys
  induction ys with
  | nil => intro _; rfl
  | cons y ys ih =>
    intro hy
    have hxr : ∀ x ∈ List.range wz.toNat, x < w := by
      intro x hx
      rw [hwz] at hx
      exact List.mem_range.mp hx
    simp only [outer_loop,
      if_neg (show ¬(false = true) by simp),
      inner_loop_zero pi' cosF waves r_width r_height w h y
        (hy y (List.mem_cons_self y ys)) hwaves (List.range wz.toNat) hxr]
    exact ih (fun j hj => hy j (List.mem_cons_of_mem _ hj))

/-! Further helper lemmas. -/

theorem pyInt_of_nonneg {q : ℚ} (h : 0 ≤ q) : pyInt q = ⌊q⌋ := if_pos h

theorem set_max_iter_max_iter (cm : ColorMap) (v : ℚ) :
    (cm.set_max_iter v).max_iter = v := by
  unfold ColorMap.set_max_iter ColorMap.update_calc
  split
  · rename_i h; exact h
  · rfl

theorem change_size_bits_none {α : Type} [Zero α] (vm : ValueMap α) (nw nh : ℕ)
    (h : nw = 0 ∨ nh = 0) : (vm.change_size nw nh).bits = none := by
  unfold ValueMap.change_size
  simp [h]

theorem sync_bits_none (vm : ValueMap ℚ) (width height : ℤ) (hvm : vm.WF)
    (h0 : width = 0 ∨ height = 0) :
    (if (vm.width : ℤ) ≠ width ∨ (vm.height : ℤ) ≠ height then
       (vm.set_size width height).1
     else vm.clear).bits = none := by
  obtain ⟨vw, vh, vbits⟩ := vm
  have hclamp : (max 0 width).toNat = 0 ∨ (max 0 height).toNat = 0 := by
    rcases h0 with h | h <;> subst h <;> simp
  have hdim0 : vw = (max 0 width).toNat → vh = (max 0 height).toNat →
      vbits = none := by
    intro hw hh
    cases vbits with
    | none => rfl
    | some l =>
      exfalso
      simp only [ValueMap.WF] at hvm
      rcases hclamp with h | h
      · exact hvm.1.1 (by omega)
      · exact hvm.1.2 (by omega)
  split
  · rw [ValueMap.set_size]
    split
    · exact change_size_bits_none ⟨vw, vh, vbits⟩ _ _ hclamp
    · rename_i hne hnc
      push_neg at hnc
      dsimp only at hnc
      exact hdim0 hnc.1.symm hnc.2.symm
  · rename_i hc
    push_neg at hc
    dsimp only at hc
    have hbn : vbits = none := by
      apply hdim0 <;> omega
    show (ValueMap.clear ⟨vw, vh, vbits⟩).bits = none
    unfold ValueMap.clear
    rw [hbn]
    rfl

/-! Claim theorems.  Each theorem settles one claim of the
specification review; witnesses instantiate the quantified theorems at
concrete inputs. -/

/-- C2: for dimensions at least 1, when the wave list is empty or every
term is disabled or below the minimum frequency ratio, the kernel
returns 0.0 and every grid cell is 0.0. -/
theorem claim_C2 (pi' : ℚ) (cosF : ℚ → ℚ) (vm : ValueMap ℚ)
    (waves : List (WaveInfo ℚ)) (width height : ℤ)
    (hw : 1 ≤ width) (hh : 1 ≤ height) (hvm : vm.WF)
    (hwaves : ∀ info ∈ waves, info.«on» = false ∨ info.frequency < MIN_FREQ_RATIO) :
    calculate_chladni_pattern pi' cosF vm waves width height none =
      (⟨width.toNat, height.toNat,
        some (List.replicate (height.toNat * width.toNat) 0)⟩, .ok 0) := by
  have hsync : (if (vm.width : ℤ) ≠ width ∨ (vm.height : ℤ) ≠ height then
      (vm.set_size width height).1 else vm.clear) =
      ⟨width.toNat, height.toNat,
        some (List.replicate (height.toNat * width.toNat) 0)⟩ := by
    split
    · rename_i hc
      rw [ValueMap.set_size]
      split
      · rw [ValueMap.change_size]
        have hmw : (max 0 width).toNat = width.toNat := by omega
        have hmh : (max 0 height).toNat = height.toNat := by omega
        rw [hmw, hmh, if_neg (by omega)]
      · rename_i hnc
        push_neg at hnc
        exfalso
        rcases hc with hcw | hch
        · apply hcw; rw [← hnc.1]; omega
        · apply hch; rw [← hnc.2]; omega
    · rename_i hc
      push_neg at hc
      have hwd : vm.width = width.toNat := by omega
      have hht : vm.height = height.toNat := by omega
      cases hbits : vm.bits with
      | none =>
        exfalso
        have := hvm
        unfold ValueMap.WF at this
        rw [hbits] at this
        omega
      | some l =>
        have := hvm
        unfold ValueMap.WF at this
        rw [hbits] at this
        unfold ValueMap.clear
        rw [hbits]
        simp only [Option.map_some']
        rw [this.2, hwd, hht]
  simp only [calculate_chladni_pattern]
  rw [hsync, if_neg (by omega), if_neg (by omega)]
  simp only [Option.getD_none]
  rw [outer_loop_zero pi' cosF waves _ _ width.toNat height.toNat width rfl hwaves
    (List.range height.toNat) (fun y hy => List.mem_range.mp hy)]

/-- C2 witness: a concrete low-frequency enabled wave on a 3 by 3 grid
yields the all-zero grid and peak 0. -/
theorem claim_C2_witness :
    calculate_chladni_pattern 0 (fun q => q) (ValueMap.make 3 3)
        [⟨true, 1, 1 / 20, 0⟩] 3 3 none =
      (⟨3, 3, some (List.replicate 9 0)⟩, .ok 0) :=
  claim_C2 0 (fun q => q) (ValueMap.make 3 3) [⟨true, 1, 1 / 20, 0⟩] 3 3
    (by norm_num) (by norm_num) (by decide)
    (by
      intro info hinfo
      rw [List.mem_singleton] at hinfo
      subst hinfo
      right
      norm_num [ MIN_FREQ_RATIO])

/-- C3 counterexample: with width 0 the kernel does not return 0.0; it
raises ZeroDivisionError, refuting the no-op claim. -/
theorem claim_C3_cex :
    (calculate_chladni_pattern 0 (fun q => q) (ValueMap.make 2 2) [] 0 5 none).2 =
      .error .zeroDivisionError := by
  rfl

/-- C3 (amended): calling with width = 0 or height = 0 first syncs the
grid size, leaving an absent buffer, and then raises ZeroDivisionError
from the reciprocal-dimension computation instead of returning 0.0. -/
theorem claim_C3 (pi' : ℚ) (cosF : ℚ → ℚ) (vm : ValueMap ℚ)
    (waves : List (WaveInfo ℚ)) (width height : ℤ)
    (hvm : vm.WF) (h0 : width = 0 ∨ height = 0) :
    (calculate_chladni_pattern pi' cosF vm waves width height none).1.bits = none ∧
    (calculate_chladni_pattern pi' cosF vm waves width height none).2 =
      .error .zeroDivisionError := by
  have hbits := sync_bits_none vm width height hvm h0
  simp only [calculate_chladni_pattern]
  by_cases hwz : width = 0
  · rw [if_pos hwz]
    exact ⟨hbits, rfl⟩
  · have hhz : height = 0 := by tauto
    rw [if_neg hwz, if_pos hhz]
    exact ⟨hbits, rfl⟩

/-- C3 witness: the amended claim at a concrete zero-width call. -/
theorem claim_C3_witness :
    (calculate_chladni_pattern 0 (fun q => q) (ValueMap.make 3 3) [] 0 7 none).1.bits =
      none ∧
    (calculate_chladni_pattern 0 (fun q => q) (ValueMap.make 3 3) [] 0 7 none).2 =
      .error .zeroDivisionError :=
  claim_C3 0 (fun q => q) (ValueMap.make 3 3) [] 0 7 (by decide) (Or.inl rfl)

set_option maxRecDepth 100000 in
/-- C5 counterexample: a ColorMap constructed with max_iter 0 maps the
value 0 (which is at most 0) to the LAST spectrum entry (255, 3, 0), not
to the first entry (0, 0, 255), because the value at-least-max_iter
branch is checked first. -/
theorem claim_C5_cex :
    spectrumCM0.iter_to_rgb 0 = (255, 3, 0) ∧
    spectrumCM0.palette.getD 0 (0, 0, 0) = (0, 0, 255) ∧
    spectrumCM0.iter_to_rgb 0 ≠ spectrumCM0.palette.getD 0 (0, 0, 0) := by
  refine ⟨by decide, by decide, by decide⟩

set_option maxRecDepth 100000 in
/-- C5 (amended): iter_to_rgb returns the last palette entry whenever
value is at least max_iter; it returns the first palette entry whenever
value is at most 0 AND below max_iter (the max_iter comparison is
checked first); the Spectrum scenario at max_iter 255 maps 0 to
(0, 0, 255) and 255 to (255, 3, 0). -/
theorem claim_C5 :
    (∀ (cm : ColorMap) (value : ℚ), cm.max_iter ≤ value →
      cm.iter_to_rgb value = cm.palette.getD 255 (0, 0, 0)) ∧
    (∀ (cm : ColorMap) (value : ℚ), value ≤ 0 → value < cm.max_iter →
      cm.iter_to_rgb value = cm.palette.getD 0 (0, 0, 0)) ∧
    spectrumCM255.iter_to_rgb 0 = (0, 0, 255) ∧
    spectrumCM255.iter_to_rgb 255 = (255, 3, 0) := by
  refine ⟨fun cm value h => ?_, fun cm value h1 h2 => ?_, by decide, by decide⟩
  · unfold ColorMap.iter_to_rgb
    rw [if_pos h]
  · unfold ColorMap.iter_to_rgb
    rw [if_neg (not_le.mpr h2), if_pos h1]

set_option maxRecDepth 100000 in
/-- C5 witness: the two guarded clauses at concrete inputs. -/
theorem claim_C5_witness :
    spectrumCM255.iter_to_rgb 300 = spectrumCM255.palette.getD 255 (0, 0, 0) ∧
    spectrumCM255.iter_to_rgb (-1) = spectrumCM255.palette.getD 0 (0, 0, 0) :=
  ⟨claim_C5.1 spectrumCM255 300 (by decide),
   claim_C5.2.1 spectrumCM255 (-1) (by decide) (by decide)⟩

/-- C8: set_size clamps negative inputs to 0, returns true exactly when
the clamped dimensions differ from the current ones, replaces the
buffer with a zero-filled buffer of the new size on change (absent when
either dimension is 0), and leaves the map untouched otherwise. -/
theorem claim_C8 {α : Type} [Zero α] (vm : ValueMap α) (w h : ℤ) :
    ((vm.set_size w h).2 = true ↔
      ¬((max 0 w).toNat = vm.width ∧ (max 0 h).toNat = vm.height)) ∧
    (¬((max 0 w).toNat = vm.width ∧ (max 0 h).toNat = vm.height) →
      (vm.set_size w h).1 =
        ⟨(max 0 w).toNat, (max 0 h).toNat,
          if (max 0 w).toNat = 0 ∨ (max 0 h).toNat = 0 then none
          else some (List.replicate ((max 0 h).toNat * (max 0 w).toNat) 0)⟩) ∧
    (((max 0 w).toNat = vm.width ∧ (max 0 h).toNat = vm.height) →
      (vm.set_size w h).1 = vm) := by
  by_cases hc : ((max 0 w).toNat ≠ vm.width ∨ (max 0 h).toNat ≠ vm.height)
  · have hne : ¬((max 0 w).toNat = vm.width ∧ (max 0 h).toNat = vm.height) := by
      tauto
    refine ⟨?_, fun _ => ?_, fun hcontra => absurd hcontra hne⟩
    · simp only [ValueMap.set_size, if_pos hc]
      tauto
    · simp only [ValueMap.set_size, if_pos hc, ValueMap.change_size]
  · have heq : (max 0 w).toNat = vm.width ∧ (max 0 h).toNat = vm.height := by
      tauto
    refine ⟨?_, fun hcontra => absurd heq hcontra, fun _ => ?_⟩
    · simp only [ValueMap.set_size, if_neg hc]
      simp [heq]
    · simp only [ValueMap.set_size, if_neg hc]

/-- C8 witness: resizing a 2 by 3 map with a negative width clamps to 0
and produces an absent buffer. -/
theorem claim_C8_witness :
    ((ValueMap.make 2 3 : ValueMap ℚ).set_size (-1) 3).1 = ⟨0, 3, none⟩ :=
  (claim_C8 (ValueMap.make 2 3 : ValueMap ℚ) (-1) 3).2.1 (by decide)

/-- C10: the ValueMap invariant (buffer absent exactly when a dimension
is 0, length equal to height times width otherwise) is established by
the constructor and preserved by set_size, clear, set_value, the
setitem indexer and delete. -/
theorem claim_C10 {α : Type} [Zero α] :
    (∀ w h : ℤ, (ValueMap.make w h : ValueMap α).WF) ∧
    (∀ (vm : ValueMap α) (w h : ℤ), vm.WF → ((vm.set_size w h).1).WF) ∧
    (∀ vm : ValueMap α, vm.WF → vm.clear.WF) ∧
    (∀ (vm vm1 : ValueMap α) (x y : ℤ) (v : α),
      vm.WF → vm.set_value x y v = .ok vm1 → vm1.WF) ∧
    (∀ (vm vm1 : ValueMap α) (y x : ℤ) (v : α),
      vm.WF → vm.setitem y x v = .ok vm1 → vm1.WF) ∧
    (∀ vm : ValueMap α, vm.WF → vm.delete.WF) :=
  ⟨fun w h => make_WF w h,
   fun vm w h hv => set_size_WF vm hv w h,
   fun vm hv => clear_WF vm hv,
   fun _ _ _ _ _ hv h => set_value_WF hv h,
   fun vm vm1 y x v hv h => set_value_WF hv ((setitem_eq_set_value vm y x v) ▸ h),
   fun vm hv => delete_WF vm hv⟩

/-- C10 witness: clearing a concrete well-formed map preserves the
invariant. -/
theorem claim_C10_witness : ((⟨1, 1, some [(2 : ℚ)]⟩ : ValueMap ℚ).clear).WF :=
  claim_C10.2.2.1 (⟨1, 1, some [(2 : ℚ)]⟩ : ValueMap ℚ) (by decide)

theorem getD_map_range (n i : ℕ) (f : ℕ → RGB) (h : i < n) :
    ((List.range n).map f)[i]?.getD (0 : ℕ × ℕ × ℕ) = f i := by
  rw [List.getElem?_map, List.getElem?_range h]
  rfl

theorem mkColorMap_eq (name : String) (palette : List RGB) (mi : ℚ)
    (h : palette.length = 256) :
    mkColorMap name palette mi =
      { name := name, palette := palette, max_iter := mi,
        rec_max_col := if mi > 0 then 1 / mi else 0 } := by
  unfold mkColorMap ColorMap.make ColorMap.update_calc
  rw [if_neg (by rw [h]; trivial)]
  rfl

theorem grayscaleCM255_eq :
    grayscaleCM255 =
      { name := "Grayscale", palette := create_grayscale_palette,
        max_iter := 255, rec_max_col := 1 / 255 } := by
  unfold grayscaleCM255
  rw [mkColorMap_eq _ _ _ (by simp [create_grayscale_palette]),
    if_pos (by norm_num : (255 : ℚ) > 0)]

theorem grayscale_getD (i : ℕ) (h : i < 256) :
    create_grayscale_palette[i]?.getD (0 : ℕ × ℕ × ℕ) = (i, i, i) := by
  unfold create_grayscale_palette
  rw [List.getElem?_map, List.getElem?_range h]
  rfl

/-- C4 counterexample: at the interior value 53/5 on the Grayscale map
with max_iter 255, the source returns (10, 10, 10) because _mix_colors
truncates each channel with int(), while the claimed formula with
channels rounded toward the nearest integer yields (11, 11, 11). -/
theorem claim_C4_cex :
    (0 : ℚ) < 53 / 5 ∧ (53 / 5 : ℚ) < grayscaleCM255.max_iter ∧
    grayscaleCM255.iter_to_rgb (53 / 5) = (10, 10, 10) ∧
    spec_iter_to_rgb_rounded grayscaleCM255.palette grayscaleCM255.max_iter (53 / 5) =
      (11, 11, 11) ∧
    grayscaleCM255.iter_to_rgb (53 / 5) ≠
      spec_iter_to_rgb_rounded grayscaleCM255.palette grayscaleCM255.max_iter
        (53 / 5) := by
  have hleft : grayscaleCM255.iter_to_rgb (53 / 5) = (10, 10, 10) := by
    rw [grayscaleCM255_eq]
    unfold ColorMap.iter_to_rgb
    rw [if_neg (by norm_num), if_neg (by norm_num)]
    have h1 : (53 / 5 : ℚ) * (1 / 255) * 255 = 53 / 5 := by norm_num
    have h2 : clampQ (53 / 5 : ℚ) 0 255 = 53 / 5 := by
      unfold clampQ
      rw [min_eq_right (by norm_num), max_eq_right (by norm_num)]
    have h3 : pyInt (53 / 5 : ℚ) = 10 := by
      rw [pyInt_of_nonneg (by norm_num)]
      norm_num
    simp only [h1, h2, h3]
    norm_num
    rw [show Int.toNat 10 = 10 from rfl]
    rw [show ((53 : ℚ) / 5 - ((10 : ℕ) : ℚ)) * 100 = 60 by push_cast; norm_num]
    rw [show pyRound (60 : ℚ) = 60 by simp only [pyRound]; norm_num]
    rw [show clampZ 60 0 100 = 60 by decide]
    rw [show (10 + 1 : ℕ) = 11 from rfl]
    rw [grayscale_getD 11 (by norm_num), grayscale_getD 10 (by norm_num)]
    simp only [mix_colors]
    norm_num
    rw [h3]
    decide
  have hright : spec_iter_to_rgb_rounded grayscaleCM255.palette
      grayscaleCM255.max_iter (53 / 5) = (11, 11, 11) := by
    rw [grayscaleCM255_eq]
    simp only [spec_iter_to_rgb_rounded]
    rw [show ((53 : ℚ) / 5) * (1 / 255) * 255 = 53 / 5 by norm_num]
    rw [show clampQ (53 / 5 : ℚ) 0 255 = 53 / 5 by
      unfold clampQ
      rw [min_eq_right (by norm_num), max_eq_right (by norm_num)]]
    rw [show ⌊(53 / 5 : ℚ)⌋ = 10 by norm_num]
    norm_num
    rw [show Int.toNat 10 = 10 from rfl]
    rw [show ((53 : ℚ) / 5 - ((10 : ℕ) : ℚ)) * 100 = 60 by push_cast; norm_num]
    rw [show pyRound (60 : ℚ) = 60 by simp only [pyRound]; norm_num]
    rw [show clampZ 60 0 100 = 60 by decide]
    rw [show (10 + 1 : ℕ) = 11 from rfl]
    rw [grayscale_getD 11 (by norm_num), grayscale_getD 10 (by norm_num)]
    simp only [spec_channel_rounded]
    norm_num
    rw [show round (53 / 5 : ℚ) = 11 by norm_num [round_eq]]
    decide
  refine ⟨by norm_num, ?_, hleft, hright, ?_⟩
  · rw [grayscaleCM255_eq]
    norm_num
  · rw [hleft, hright]
    decide

/-- C4 (amended): for a color map whose cached reciprocal matches its
positive max_iter, and an interior value, iter_to_rgb computes the
clamped scaled position, the floor index clamped to at most 254, the
rounded percent weight, and blends the two adjacent palette entries with
each channel TRUNCATED toward zero by int() (not rounded to nearest) and
clamped to the byte range. -/
theorem claim_C4 (cm : ColorMap) (value : ℚ)
    (hrec : cm.rec_max_col = if 0 < cm.max_iter then 1 / cm.max_iter else 0)
    (hpos : 0 < cm.max_iter) (h0 : 0 < value) (h1 : value < cm.max_iter) :
    cm.iter_to_rgb value = spec_iter_to_rgb_truncated cm.palette cm.max_iter value := by
  rw [if_pos hpos] at hrec
  have hclamp_nonneg : (0 : ℚ) ≤ clampQ (value * (1 / cm.max_iter) * 255) 0 255 :=
    le_max_left 0 _
  have echan : ∀ (wt : ℤ) (a b : ℕ),
      (a : ℚ) * (1 - (wt : ℚ) / 100) + (b : ℚ) * ((wt : ℚ) / 100) =
        (a : ℚ) * ((100 - wt : ℤ) : ℚ) / 100 + (b : ℚ) * ((wt : ℤ) : ℚ) / 100 := by
    intro wt a b
    push_cast
    ring
  simp only [ColorMap.iter_to_rgb, spec_iter_to_rgb_truncated, mix_colors,
    spec_channel_truncated,
    if_neg (show ¬(value ≥ cm.max_iter) from not_le.mpr h1),
    if_neg (show ¬(value ≤ 0) from not_le.mpr h0), hrec,
    pyInt_of_nonneg hclamp_nonneg, echan]

/-- C4 witness: the amended formula at the Grayscale map and value 1/2. -/
theorem claim_C4_witness :
    grayscaleCM255.iter_to_rgb (1 / 2) =
      spec_iter_to_rgb_truncated grayscaleCM255.palette grayscaleCM255.max_iter
        (1 / 2) :=
  claim_C4 grayscaleCM255 (1 / 2)
    (by rw [grayscaleCM255_eq]; norm_num)
    (by rw [grayscaleCM255_eq]; norm_num)
    (by norm_num)
    (by rw [grayscaleCM255_eq]; norm_num)

theorem Except_bind_ok {ε α β : Type} (a : α) (f : α → Except ε β) :
    (Except.ok a : Except ε α) >>= f = f a := rfl

theorem Except_map_ok {ε α β : Type} (f : α → β) (a : α) :
    (Except.ok a : Except ε α).map f = .ok (f a) := rfl

theorem get_value_cell (vm : ValueMap ℚ) (l : List ℚ) (hb : vm.bits = some l)
    (x y : ℕ) (hx : x < vm.width) (hy : y < vm.height) :
    vm.get_value (x : ℤ) (y : ℤ) = .ok (vm.cell x y) := by
  simp only [ValueMap.get_value, ValueMap.cell, hb]
  rw [if_pos ⟨Int.natCast_nonneg y, by exact_mod_cast hy, Int.natCast_nonneg x,
    by exact_mod_cast hx⟩]
  simp [Int.toNat_natCast]

theorem row_mapM (vm : ValueMap ℚ) (cm : ColorMap) (l : List ℚ)
    (hb : vm.bits = some l) (y : ℕ) (hy : y < vm.height) :
    ∀ xs : List ℕ, (∀ x ∈ xs, x < vm.width) →
    xs.mapM (fun (x : ℕ) => (vm.get_value (x : ℤ) (y : ℤ)).map
        (fun val => cm.iter_to_rgb val)) =
      .ok (xs.map (fun x => cm.iter_to_rgb (vm.cell x y))) := by
  intro xs
  induction xs with
  | nil => intro _; rfl
  | cons x xs ih =>
    intro hx
    simp only [List.mapM_cons,
      get_value_cell vm l hb x y (hx x (List.mem_cons_self x xs)) hy,
      Except_map_ok, Except_bind_ok,
      ih (fun j hj => hx j (List.mem_cons_of_mem _ hj)), List.map_cons]
    rfl

theorem rows_mapM (vm : ValueMap ℚ) (cm : ColorMap) (l : List ℚ)
    (hb : vm.bits = some l) :
    ∀ ys : List ℕ, (∀ y ∈ ys, y < vm.height) →
    ys.mapM (fun (y : ℕ) => (List.range vm.width).mapM (fun (x : ℕ) =>
        (vm.get_value (x : ℤ) (y : ℤ)).map (fun val => cm.iter_to_rgb val))) =
      .ok (ys.map (fun y => (List.range vm.width).map
        (fun x => cm.iter_to_rgb (vm.cell x y)))) := by
  intro ys
  induction ys with
  | nil => intro _; rfl
  | cons y ys ih =>
    intro hy
    simp only [List.mapM_cons,
      row_mapM vm cm l hb y (hy y (List.mem_cons_self y ys))
        (List.range vm.width) (fun x hx => List.mem_range.mp hx),
      Except_bind_ok,
      ih (fun j hj => hy j (List.mem_cons_of_mem _ hj)), List.map_cons]
    rfl

/-- C9: generate_bitmap_pil sets the color map scale to the peak exactly
when normalize is set, a peak is supplied and the peak is positive, and
to the fixed 256.0 multiplier otherwise, then maps every grid cell
through iter_to_rgb into the row-major pixel buffer; a grid with either
dimension 0 yields a 1 by 1 black image instead of failing. -/
theorem claim_C9 (vm : ValueMap ℚ) (cm : ColorMap) (mv : Option ℚ)
    (normalize : Bool) (hvm : vm.WF) :
    ((vm.width = 0 ∨ vm.height = 0) →
      generate_bitmap_pil vm cm mv normalize = .ok (cm, ⟨1, 1, [(0, 0, 0)]⟩)) ∧
    (vm.width ≠ 0 → vm.height ≠ 0 →
      ∃ cm1,
        generate_bitmap_pil vm cm mv normalize =
          .ok (cm1, ⟨vm.width, vm.height,
            ((List.range vm.height).map (fun y =>
              (List.range vm.width).map (fun x =>
                cm1.iter_to_rgb (vm.cell x y)))).flatten⟩) ∧
        cm1.max_iter = (match normalize, mv with
          | true, some peak => if 0 < peak then peak else ITERATION_MULTIPLIER
          | _, _ => ITERATION_MULTIPLIER)) := by
  constructor
  · intro h0
    unfold generate_bitmap_pil
    rw [if_pos h0]
  · intro hw hh
    obtain ⟨l, hb⟩ : ∃ l, vm.bits = some l := by
      obtain ⟨vw, vh, vbits⟩ := vm
      cases vbits with
      | none =>
        exfalso
        simp only [ValueMap.WF] at hvm
        dsimp only at hw hh
        tauto
      | some l => exact ⟨l, rfl⟩
    unfold generate_bitmap_pil
    rw [if_neg (by tauto)]
    cases normalize with
    | false =>
      cases mv with
      | none =>
        refine ⟨cm.set_max_iter ITERATION_MULTIPLIER, ?_,
          set_max_iter_max_iter cm ITERATION_MULTIPLIER⟩
        simp only [rows_mapM vm (cm.set_max_iter ITERATION_MULTIPLIER) l hb
          (List.range vm.height) (fun y hy => List.mem_range.mp hy)]
      | some peak =>
        refine ⟨cm.set_max_iter ITERATION_MULTIPLIER, ?_,
          set_max_iter_max_iter cm ITERATION_MULTIPLIER⟩
        simp only [rows_mapM vm (cm.set_max_iter ITERATION_MULTIPLIER) l hb
          (List.range vm.height) (fun y hy => List.mem_range.mp hy)]
    | true =>
      cases mv with
      | none =>
        refine ⟨cm.set_max_iter ITERATION_MULTIPLIER, ?_,
          set_max_iter_max_iter cm ITERATION_MULTIPLIER⟩
        simp only [rows_mapM vm (cm.set_max_iter ITERATION_MULTIPLIER) l hb
          (List.range vm.height) (fun y hy => List.mem_range.mp hy)]
      | some peak =>
        by_cases hpk : peak > 0
        · refine ⟨cm.set_max_iter peak, ?_,
            by rw [set_max_iter_max_iter]; exact (if_pos hpk).symm⟩
          simp only [if_pos hpk, rows_mapM vm (cm.set_max_iter peak) l hb
            (List.range vm.height) (fun y hy => List.mem_range.mp hy)]
        · refine ⟨cm.set_max_iter ITERATION_MULTIPLIER, ?_,
            by rw [set_max_iter_max_iter]; exact (if_neg hpk).symm⟩
          simp only [if_neg hpk, rows_mapM vm (cm.set_max_iter ITERATION_MULTIPLIER)
            l hb (List.range vm.height) (fun y hy => List.mem_range.mp hy)]

/-- C9 witness: rendering a concrete 1 by 2 grid without normalization
sets the scale to the fixed multiplier and fills the pixel rows. -/
theorem claim_C9_witness :
    ∃ cm1,
      generate_bitmap_pil (ValueMap.make 1 2) grayscaleCM255 none false =
        .ok (cm1, ⟨(ValueMap.make 1 2 : ValueMap ℚ).width,
          (ValueMap.make 1 2 : ValueMap ℚ).height,
          ((List.range (ValueMap.make 1 2 : ValueMap ℚ).height).map (fun y =>
            (List.range (ValueMap.make 1 2 : ValueMap ℚ).width).map (fun x =>
              cm1.iter_to_rgb ((ValueMap.make 1 2 : ValueMap ℚ).cell x y)))).flatten⟩) ∧
      cm1.max_iter = ITERATION_MULTIPLIER :=
  (claim_C9 (ValueMap.make 1 2) grayscaleCM255 none false (by decide)).2
    (by decide) (by decide)

theorem packU_ok {n v : ℕ} (h : v < 256 ^ n) : packU n v = .ok (packLE n v) := by
  unfold packU
  rw [if_pos h]

theorem normalize_byte_roundtrip (b : Bool) :
    decide ((if b then (1 : ℕ) else 0) > 0) = b := by
  cases b <;> rfl

theorem load_parse (v c m w h nb : ℕ) (rest : List ℕ)
    (hv : v = VERSION_STANDARD ∨ v = VERSION_WITH_LEVEL_MAP) (hv2 : v < 256 ^ 2)
    (hc : c < 256 ^ 4) (hm : m < 256 ^ 4) (hw : w < 256 ^ 4) (hh : h < 256 ^ 4)
    (hnb : nb < 256) :
    load_chl_file (CHL_ID_EXPECTED ++ (packLE 2 v ++ (packLE 4 c ++ (packLE 4 m ++
        (packLE 4 w ++ (packLE 4 h ++ ([nb] ++ rest))))))) =
      load_tail v m w h nb (read_waves c rest) := by
  have hb1 : ([nb] : List ℕ) = packLE 1 nb := by
    simp [packLE, Nat.mod_eq_of_lt hnb]
  simp only [load_chl_file, load_tail, hb1,
    List.take_left' (show CHL_ID_EXPECTED.length = 4 from rfl),
    List.drop_left' (show CHL_ID_EXPECTED.length = 4 from rfl),
    ne_eq, not_true_eq_false, if_false,
    unpackNum_append hv2, unpackNum_append hc, unpackNum_append hm,
    unpackNum_append hw, unpackNum_append hh,
    unpackNum_append (show nb < 256 ^ 1 by simpa using hnb),
    if_neg (not_not_intro hv)]

/-- C7: saving with save_level_map false, or with no grid present,
writes the standard version, and loading that file yields a document
whose value_map is None while the wave parameters, map index, width,
height and normalize flag still equal the saved ones. -/
theorem claim_C7 (data : ChladniData ℕ) (save_level_map : Bool)
    (hslm : save_level_map = false ∨ data.value_map = none)
    (hc : data.wave_infos.length < 2 ^ 32) (hm : data.map_index < 2 ^ 32)
    (hw : data.width < 2 ^ 32) (hh : data.height < 2 ^ 32)
    (hwaves : ∀ wi ∈ data.wave_infos,
      wi.amplitude < 2 ^ 32 ∧ wi.frequency < 2 ^ 32 ∧ wi.phase < 2 ^ 32) :
    ∃ stream loaded,
      save_chl_file data save_level_map = .ok stream ∧
      stream.take 6 = CHL_ID_EXPECTED ++ packLE 2 VERSION_STANDARD ∧
      load_chl_file stream = .ok loaded ∧
      loaded.value_map = none ∧
      loaded.wave_infos = data.wave_infos ∧
      loaded.map_index = data.map_index ∧
      loaded.width = data.width ∧
      loaded.height = data.height ∧
      loaded.normalize = data.normalize := by
  have hc' : data.wave_infos.length < 256 ^ 4 := by norm_num at hc ⊢; omega
  have hm' : data.map_index < 256 ^ 4 := by norm_num at hm ⊢; omega
  have hw' : data.width < 256 ^ 4 := by norm_num at hw ⊢; omega
  have hh' : data.height < 256 ^ 4 := by norm_num at hh ⊢; omega
  have hver : (if save_level_map && data.value_map.isSome then
      VERSION_WITH_LEVEL_MAP else VERSION_STANDARD) = VERSION_STANDARD := by
    rcases hslm with h | h <;> simp [h]
  have hsave : save_chl_file data save_level_map =
      .ok (CHL_ID_EXPECTED ++ packLE 2 VERSION_STANDARD ++
        packLE 4 data.wave_infos.length ++ packLE 4 data.map_index ++
        packLE 4 data.width ++ packLE 4 data.height ++
        [if data.normalize then 1 else 0] ++
        (data.wave_infos.map write_wave_info).flatten ++ []) := by
    simp only [save_chl_file, hver,
      packU_ok (show VERSION_STANDARD < 256 ^ 2 by norm_num [VERSION_STANDARD]),
      packU_ok hc', packU_ok hm', packU_ok hw', packU_ok hh']
    rcases hvmo : data.value_map with _ | vm
    · simp
    · simp [if_neg (show ¬(VERSION_STANDARD = VERSION_WITH_LEVEL_MAP) by
        norm_num [VERSION_STANDARD, VERSION_WITH_LEVEL_MAP])]
  refine ⟨_, ⟨data.wave_infos, data.map_index, data.width, data.height,
    decide ((if data.normalize then (1 : ℕ) else 0) > 0), none⟩, hsave, ?_, ?_,
    rfl, rfl, rfl, rfl, rfl, normalize_byte_roundtrip data.normalize⟩
  · rw [show CHL_ID_EXPECTED ++ packLE 2 VERSION_STANDARD ++
        packLE 4 data.wave_infos.length ++ packLE 4 data.map_index ++
        packLE 4 data.width ++ packLE 4 data.height ++
        [if data.normalize then 1 else 0] ++
        (data.wave_infos.map write_wave_info).flatten ++ [] =
      (CHL_ID_EXPECTED ++ packLE 2 VERSION_STANDARD) ++
        (packLE 4 data.wave_infos.length ++ (packLE 4 data.map_index ++
        (packLE 4 data.width ++ (packLE 4 data.height ++
        ([if data.normalize then 1 else 0] ++
        ((data.wave_infos.map write_wave_info).flatten ++ [])))))) by
      simp [List.append_assoc]]
    exact List.take_left'
      (show (CHL_ID_EXPECTED ++ packLE 2 VERSION_STANDARD).length = 6 by
        simp [packLE_length, CHL_ID_EXPECTED])
  · rw [show CHL_ID_EXPECTED ++ packLE 2 VERSION_STANDARD ++
        packLE 4 data.wave_infos.length ++ packLE 4 data.map_index ++
        packLE 4 data.width ++ packLE 4 data.height ++
        [if data.normalize then 1 else 0] ++
        (data.wave_infos.map write_wave_info).flatten ++ [] =
      CHL_ID_EXPECTED ++ (packLE 2 VERSION_STANDARD ++
        (packLE 4 data.wave_infos.length ++ (packLE 4 data.map_index ++
        (packLE 4 data.width ++ (packLE 4 data.height ++
        ([if data.normalize then 1 else 0] ++
        ((data.wave_infos.map write_wave_info).flatten ++ []))))))) by
      simp [List.append_assoc]]
    rw [load_parse VERSION_STANDARD data.wave_infos.length data.map_index
      data.width data.height (if data.normalize then 1 else 0)
      ((data.wave_infos.map write_wave_info).flatten ++ [])
      (Or.inl rfl) (by norm_num [VERSION_STANDARD]) hc' hm' hw' hh'
      (by split <;> norm_num)]
    rw [read_waves_append data.wave_infos [] hwaves]
    simp only [load_tail,
      if_neg (show ¬(VERSION_STANDARD = VERSION_WITH_LEVEL_MAP) by
        norm_num [VERSION_STANDARD, VERSION_WITH_LEVEL_MAP])]

/-- C7 witness: a concrete document saved without the level map loads
back with value_map None and matching fields. -/
theorem claim_C7_witness :
    ∃ stream loaded,
      save_chl_file
          (⟨[⟨true, 5, 7, 9⟩], 2, 3, 4, true, some ⟨3, 4, some (List.replicate 12 0)⟩⟩ :
            ChladniData ℕ) false = .ok stream ∧
      stream.take 6 = CHL_ID_EXPECTED ++ packLE 2 VERSION_STANDARD ∧
      load_chl_file stream = .ok loaded ∧
      loaded.value_map = none ∧
      loaded.wave_infos = [⟨true, 5, 7, 9⟩] ∧
      loaded.map_index = 2 ∧
      loaded.width = 3 ∧
      loaded.height = 4 ∧
      loaded.normalize = true :=
  claim_C7 ⟨[⟨true, 5, 7, 9⟩], 2, 3, 4, true, some ⟨3, 4, some (List.replicate 12 0)⟩⟩
    false (Or.inl rfl) (by norm_num) (by norm_num) (by norm_num) (by norm_num)
    (by decide)

/-- C1: saving a document with the level map and loading it back
reproduces the wave records, map index, width, height, normalize flag
and the grid buffer bit for bit (fields carried as float32 patterns). -/
theorem claim_C1 (data : ChladniData ℕ) (vm : ValueMap ℕ) (l : List ℕ)
    (hvm : data.value_map = some vm) (hb : vm.bits = some l)
    (hlen : l.length = data.width * data.height)
    (hm : data.map_index < 2 ^ 32) (hw : data.width < 2 ^ 32)
    (hh : data.height < 2 ^ 32) (hc : data.wave_infos.length < 2 ^ 32)
    (hwaves : ∀ wi ∈ data.wave_infos,
      wi.amplitude < 2 ^ 32 ∧ wi.frequency < 2 ^ 32 ∧ wi.phase < 2 ^ 32)
    (hgrid : ∀ v ∈ l, v < 2 ^ 32) :
    ∃ stream loaded,
      save_chl_file data true = .ok stream ∧
      load_chl_file stream = .ok loaded ∧
      loaded.wave_infos = data.wave_infos ∧
      loaded.map_index = data.map_index ∧
      loaded.width = data.width ∧
      loaded.height = data.height ∧
      loaded.normalize = data.normalize ∧
      ∃ vm1, loaded.value_map = some vm1 ∧ vm1.bits = some l := by
  have hc' : data.wave_infos.length < 256 ^ 4 := by norm_num at hc ⊢; omega
  have hm' : data.map_index < 256 ^ 4 := by norm_num at hm ⊢; omega
  have hw' : data.width < 256 ^ 4 := by norm_num at hw ⊢; omega
  have hh' : data.height < 256 ^ 4 := by norm_num at hh ⊢; omega
  have hver : (if true && data.value_map.isSome then
      VERSION_WITH_LEVEL_MAP else VERSION_STANDARD) = VERSION_WITH_LEVEL_MAP := by
    simp [hvm]
  have hsave : save_chl_file data true =
      .ok (CHL_ID_EXPECTED ++ packLE 2 VERSION_WITH_LEVEL_MAP ++
        packLE 4 data.wave_infos.length ++ packLE 4 data.map_index ++
        packLE 4 data.width ++ packLE 4 data.height ++
        [if data.normalize then 1 else 0] ++
        (data.wave_infos.map write_wave_info).flatten ++
        (l.map (packLE 4)).flatten) := by
    simp only [save_chl_file, hver,
      packU_ok (show VERSION_WITH_LEVEL_MAP < 256 ^ 2 by
        norm_num [VERSION_WITH_LEVEL_MAP]),
      packU_ok hc', packU_ok hm', packU_ok hw', packU_ok hh', hvm, hb]
    simp
    rw [packU_ok (show VERSION_WITH_LEVEL_MAP < 256 ^ 2 by
      norm_num [VERSION_WITH_LEVEL_MAP])]
  have hload : load_chl_file (CHL_ID_EXPECTED ++
      packLE 2 VERSION_WITH_LEVEL_MAP ++ packLE 4 data.wave_infos.length ++
      packLE 4 data.map_index ++ packLE 4 data.width ++ packLE 4 data.height ++
      [if data.normalize then 1 else 0] ++
      (data.wave_infos.map write_wave_info).flatten ++
      (l.map (packLE 4)).flatten) =
      load_tail VERSION_WITH_LEVEL_MAP data.map_index data.width data.height
        (if data.normalize then 1 else 0)
        (.ok (data.wave_infos, (l.map (packLE 4)).flatten)) := by
    rw [show CHL_ID_EXPECTED ++ packLE 2 VERSION_WITH_LEVEL_MAP ++
        packLE 4 data.wave_infos.length ++ packLE 4 data.map_index ++
        packLE 4 data.width ++ packLE 4 data.height ++
        [if data.normalize then 1 else 0] ++
        (data.wave_infos.map write_wave_info).flatten ++
        (l.map (packLE 4)).flatten =
      CHL_ID_EXPECTED ++ (packLE 2 VERSION_WITH_LEVEL_MAP ++
        (packLE 4 data.wave_infos.length ++ (packLE 4 data.map_index ++
        (packLE 4 data.width ++ (packLE 4 data.height ++
        ([if data.normalize then 1 else 0] ++
        ((data.wave_infos.map write_wave_info).flatten ++
        (l.map (packLE 4)).flatten))))))) by simp [List.append_assoc]]
    rw [load_parse VERSION_WITH_LEVEL_MAP data.wave_infos.length data.map_index
      data.width data.height (if data.normalize then 1 else 0)
      ((data.wave_infos.map write_wave_info).flatten ++ (l.map (packLE 4)).flatten)
      (Or.inr rfl) (by norm_num [VERSION_WITH_LEVEL_MAP]) hc' hm' hw' hh'
      (by split <;> norm_num)]
    rw [read_waves_append data.wave_infos ((l.map (packLE 4)).flatten) hwaves]
  by_cases hpos : 0 < data.width ∧ 0 < data.height
  · have hglen : ((l.map (packLE 4)).flatten).length =
        data.width * data.height * 4 := by
      rw [flatten_map_packLE_length, hlen]
      ring
    refine ⟨_, ⟨data.wave_infos, data.map_index, data.width, data.height,
      decide ((if data.normalize then (1 : ℕ) else 0) > 0),
      some { (ValueMap.make (data.width : ℤ) (data.height : ℤ) : ValueMap ℕ) with
        bits := some l }⟩, hsave, ?_,
      rfl, rfl, rfl, rfl, normalize_byte_roundtrip data.normalize, _, rfl, rfl⟩
    rw [hload]
    simp only [load_tail, if_pos rfl, if_pos hpos]
    rw [show ((l.map (packLE 4)).flatten).take (data.width * data.height * 4) =
        (l.map (packLE 4)).flatten by rw [← hglen]; exact List.take_length _]
    rw [if_neg (show ¬((l.map (packLE 4)).flatten.length ≠
        data.width * data.height * 4) from by
      rw [hglen]
      exact fun hcon => hcon rfl)]
    rw [from_buffer_f32_flatten l hgrid]
    simp
  · have hwh0 : data.width * data.height = 0 := by
      rcases Nat.eq_zero_or_pos data.width with h | h
      · simp [h]
      · rcases Nat.eq_zero_or_pos data.height with h2 | h2
        · simp [h2]
        · exact absurd ⟨h, h2⟩ hpos
    have hl0 : l = [] := List.length_eq_zero.mp (by rw [hlen, hwh0])
    refine ⟨_, ⟨data.wave_infos, data.map_index, data.width, data.height,
      decide ((if data.normalize then (1 : ℕ) else 0) > 0),
      some { (ValueMap.make (data.width : ℤ) (data.height : ℤ) : ValueMap ℕ) with
        bits := some ([] : List ℕ) }⟩, hsave, ?_,
      rfl, rfl, rfl, rfl, normalize_byte_roundtrip data.normalize, _, rfl,
      by rw [hl0]⟩
    rw [hload]
    simp only [load_tail, if_pos rfl, if_neg hpos]
    simp

/-- C1 witness: a concrete two-cell document with one wave round-trips
bit for bit. -/
theorem claim_C1_witness :
    ∃ stream loaded,
      save_chl_file
          (⟨[⟨true, 5, 7, 9⟩], 2, 2, 1, true, some ⟨2, 1, some [3, 4]⟩⟩ :
            ChladniData ℕ) true = .ok stream ∧
      load_chl_file stream = .ok loaded ∧
      loaded.wave_infos = [⟨true, 5, 7, 9⟩] ∧
      loaded.map_index = 2 ∧
      loaded.width = 2 ∧
      loaded.height = 1 ∧
      loaded.normalize = true ∧
      ∃ vm1, loaded.value_map = some vm1 ∧ vm1.bits = some [3, 4] :=
  claim_C1 ⟨[⟨true, 5, 7, 9⟩], 2, 2, 1, true, some ⟨2, 1, some [3, 4]⟩⟩
    ⟨2, 1, some [3, 4]⟩ [3, 4] rfl rfl (by decide) (by norm_num) (by norm_num)
    (by norm_num) (by norm_num) (by decide) (by decide)

/-- C6: a stream whose first four bytes are not the magic makes
load_chl_file raise ValueError (the format error), and a well-formed
header whose wave records hold fewer bytes than it declares makes it
raise struct.error (the truncated-data error), not any other kind. -/
theorem claim_C6 :
    (∀ stream : List ℕ, stream.take 4 ≠ CHL_ID_EXPECTED →
      load_chl_file stream = .error .valueError) ∧
    (∀ (capacity map_index width height normalize_byte : ℕ) (wave_bytes : List ℕ),
      capacity < 2 ^ 32 → map_index < 2 ^ 32 → width < 2 ^ 32 → height < 2 ^ 32 →
      normalize_byte < 256 → wave_bytes.length < 13 * capacity →
      load_chl_file (CHL_ID_EXPECTED ++ packLE 2 VERSION_STANDARD ++
          packLE 4 capacity ++ packLE 4 map_index ++ packLE 4 width ++
          packLE 4 height ++ [normalize_byte] ++ wave_bytes) =
        .error .structError) := by
  constructor
  · intro stream hmagic
    simp only [load_chl_file, if_pos hmagic]
  · intro c m w h nb wb hc hm hw hh hnb hlen
    have hc' : c < 256 ^ 4 := by norm_num at hc ⊢; omega
    have hm' : m < 256 ^ 4 := by norm_num at hm ⊢; omega
    have hw' : w < 256 ^ 4 := by norm_num at hw ⊢; omega
    have hh' : h < 256 ^ 4 := by norm_num at hh ⊢; omega
    rw [show CHL_ID_EXPECTED ++ packLE 2 VERSION_STANDARD ++ packLE 4 c ++
        packLE 4 m ++ packLE 4 w ++ packLE 4 h ++ [nb] ++ wb =
      CHL_ID_EXPECTED ++ (packLE 2 VERSION_STANDARD ++ (packLE 4 c ++
        (packLE 4 m ++ (packLE 4 w ++ (packLE 4 h ++ ([nb] ++ wb)))))) by
      simp [List.append_assoc]]
    rw [load_parse VERSION_STANDARD c m w h nb wb (Or.inl rfl)
      (by norm_num [VERSION_STANDARD]) hc' hm' hw' hh' hnb]
    rw [read_waves_short c wb hlen]
    rfl

/-- C6 witness: a junk stream raises the format error, and a header
declaring one wave followed by a single byte raises the truncation
error. -/
theorem claim_C6_witness :
    load_chl_file [0, 1, 2] = .error .valueError ∧
    load_chl_file (CHL_ID_EXPECTED ++ packLE 2 VERSION_STANDARD ++ packLE 4 1 ++
        packLE 4 0 ++ packLE 4 2 ++ packLE 4 2 ++ [1] ++ [7]) =
      .error .structError :=
  ⟨claim_C6.1 [0, 1, 2] (by decide),
   claim_C6.2 1 0 2 2 1 [7] (by norm_num) (by norm_num) (by norm_num)
     (by norm_num) (by norm_num) (by decide)⟩

end Chladni
